import Mathlib

/-!
Verification of the route-match analysis pipeline.

Shallow embedding of the analysis core found in `src/hooks/useAnalyzer.ts`
(prompt derivation, response matching, embedding provider, cosine similarity,
CSV export) and `src/components/AnalysisResults.tsx` (intent classification,
priority scoring).

Modelling conventions:
* JavaScript strings are modelled as `List Char`; `String.prototype.includes`
  is modelled by `containsSub`, `startsWith`-style prefix testing by `isPref`.
* JavaScript numbers are modelled as exact rationals (`ℚ`) in the diagnostics
  and export code, and as real numbers (`ℝ`) in the cosine-similarity engine,
  where `Math.sqrt` forces an irrational carrier.  A result that is `NaN`
  ("undefined") in the source is modelled as `Option.none`.
* The embedding provider's network effect is abstracted as an oracle
  `svc : List Char → Option (List ℚ)` (`none` = any thrown failure: auth,
  network, malformed response) and its use of `Math.random() - 0.5` as a
  pseudo-random source `rng : Nat → ℚ`.
-/

/-- Model of `String.prototype.startsWith` / prefix testing on character
lists: `isPref p l` is true when `p` is an initial segment of `l`. -/
def isPref : List Char → List Char → Bool
  | [], _ => true
  | _ :: _, [] => false
  | a :: as, b :: bs => (a == b) && isPref as bs

/-- Model of `hay.includes(needle)` from JavaScript: substring occurrence. -/
def containsSub : List Char → List Char → Bool
  | [], needle => needle.isEmpty
  | a :: t, needle => isPref needle (a :: t) || containsSub t needle

/-- Model of `s.toLowerCase()` on a character list. -/
def lowerStr (s : List Char) : List Char := s.map Char.toLower

theorem isPref_append_self (p t : List Char) : isPref p (p ++ t) = true := by
  induction p with
  | nil => rfl
  | cons a as ih => simp [isPref, ih]

theorem isPref_exists {p l : List Char} (h : isPref p l = true) :
    ∃ t, l = p ++ t := by
  induction p generalizing l with
  | nil => exact ⟨l, rfl⟩
  | cons a as ih =>
    cases l with
    | nil => simp [isPref] at h
    | cons b bs =>
      simp only [isPref, Bool.and_eq_true, beq_iff_eq] at h
      obtain ⟨t, ht⟩ := ih h.2
      exact ⟨t, by simp [h.1, ht]⟩

theorem containsSub_of_append (sep p s : List Char) :
    containsSub (p ++ sep ++ s) sep = true := by
  induction p with
  | nil =>
    cases hs : sep ++ s with
    | nil =>
      have hsep : sep = [] := by
        cases sep with
        | nil => rfl
        | cons a t => simp at hs
      have hs' : s = [] := by
        rw [hsep] at hs; simpa using hs
      simp [hsep, hs', containsSub, List.isEmpty]
    | cons a t =>
      simp only [List.nil_append, hs, containsSub]
      have : isPref sep (sep ++ s) = true := isPref_append_self sep s
      rw [hs] at this
      simp [this]
  | cons a p' ih =>
    simp only [List.cons_append, containsSub, Bool.or_eq_true]
    exact Or.inr (by simpa [List.append_assoc] using ih)

theorem containsSub_exists {l p : List Char} (h : containsSub l p = true) :
    ∃ u v, l = u ++ p ++ v := by
  induction l with
  | nil =>
    have : p = [] := by
      cases p with
      | nil => rfl
      | cons a t => simp [containsSub, List.isEmpty] at h
    exact ⟨[], [], by simp [this]⟩
  | cons a t ih =>
    simp only [containsSub, Bool.or_eq_true] at h
    rcases h with h | h
    · obtain ⟨v, hv⟩ := isPref_exists h
      exact ⟨[], v, by simp [hv]⟩
    · obtain ⟨u, v, huv⟩ := ih h
      exact ⟨a :: u, v, by simp [huv]⟩

/-- Intent classes produced by `classifyIntent`. -/
inductive Intent where
  | Informational
  | Transactional
  | Navigational
  | Mixed
deriving DecidableEq

/-- One entry of the uploaded answer corpus: the JSON objects carry a
recorded query in their `prompt` field and the canned answer in `response`
(the spec's `AnswerRecord { query, answer }`). -/
structure AnswerRecord where
  prompt : List Char
  response : List Char

/-- The central output record (interface `AnalysisResult` in
`AnalysisResults.tsx`); JavaScript optional fields become `Option`. -/
structure AnalysisResult where
  url : List Char
  prompt : List Char
  pageText : List Char
  gptAnswer : List Char
  similarity : ℚ
  urlPattern : Option (List Char) := none
  matchFound : Option Bool := none
  idealPrompt : Option (List Char) := none
  intentType : Option Intent := none
  priorityScore : Option ℚ := none
  keywordGaps : Option (List (List Char)) := none
  entityMismatch : Option Bool := none
  sentenceStructureIssue : Option Bool := none

/-! ## Embedding Provider (`generateEmbedding`, useAnalyzer.ts lines 73-98)

The `fetch` to the embedding service, the `response.ok` test and the JSON
field access `data.data[0].embedding` are abstracted as one oracle `svc`
applied to the submitted input; `svc _ = none` models every path that throws
inside the `try` block.  The `catch` branch `Array.from({length: 1536},
() => Math.random() - 0.5)` is modelled by sampling the pseudo-random
source `rng` at indices `0..1535`. -/

def generateEmbedding (svc : List Char → Option (List ℚ)) (rng : Nat → ℚ)
    (text : List Char) : List ℚ :=
  match svc (text.take 8000) with
  | some v => v
  | none => (List.range 1536).map rng

/-! ## Similarity Engine (`cosineSimilarity`, useAnalyzer.ts lines 100-105)

`a.reduce((sum, val, i) => sum + val * b[i], 0)`: when `a` is longer than
`b`, the access `b[i]` is `undefined`, `val * undefined` is `NaN`, and the
whole result is `NaN`; this is the `else => none` branch.  When
`a.length ≤ b.length` the reduce equals the fold over `a.zip b`.  A zero
magnitude makes the dot product `0` as well (every used coordinate is `0`),
so the division is `0/0 = NaN`, modelled by `none`. -/

def sumSq (v : List ℝ) : ℝ := v.foldl (fun s x => s + x * x) 0

noncomputable def magnitude (v : List ℝ) : ℝ := Real.sqrt (sumSq v)

def dotJS (a b : List ℝ) : ℝ := (a.zip b).foldl (fun s p => s + p.1 * p.2) 0

open Classical in
noncomputable def cosineSimilarity (a b : List ℝ) : Option ℝ :=
  if a.length ≤ b.length then
    if magnitude a * magnitude b = 0 then none
    else some (dotJS a b / (magnitude a * magnitude b))
  else none

/-! ## Prompt Deriver (`extractRoutePrompt`, useAnalyzer.ts lines 107-116) -/

/-- The literal part of the pattern `/train-times\/([^\/]+)/`. -/
def tpat : List Char := ("train-times/").data

/-- The separator `'-to-'`. -/
def sep : List Char := ("-to-").data

/-- Model of `url.match(/train-times\/([^\/]+)/)`: scan left to right; at
the first position where the literal `train-times/` matches and is followed
by at least one non-`'/'` character, capture the maximal run of non-`'/'`
characters; otherwise keep scanning. -/
def routeCapture : List Char → Option (List Char)
  | [] => none
  | c :: cs =>
    if isPref tpat (c :: cs) then
      let cap := ((c :: cs).drop tpat.length).takeWhile (fun ch => ch ≠ '/')
      if cap.isEmpty then routeCapture cs else some cap
    else routeCapture cs

/-- Model of `s.split(sep)` restricted to the first separator occurrence:
`breakOn sep l = some (before, after)` splits at the first occurrence of
`sep` in `l`, and is `none` when `sep` does not occur. -/
def breakOn (sp : List Char) : List Char → Option (List Char × List Char)
  | [] => if sp.isEmpty then some ([], []) else none
  | c :: cs =>
    if isPref sp (c :: cs) then some ([], (c :: cs).drop sp.length)
    else (breakOn sp cs).map (fun p => (c :: p.1, p.2))

/-- Model of `match[1].replace(/\//g, '').toLowerCase()` applied to the captured
slug. -/
def routeOf (m : List Char) : List Char :=
  lowerStr (m.filter (fun ch => ch ≠ '/'))

/-- The destination token: the second element of `route.split('-to-')`,
i.e. the text between the first separator and the next one (or the end). -/
def destPart (rest : List Char) : List Char :=
  match breakOn sep rest with
  | some (d, _) => d
  | none => rest

def extractRoutePrompt (url : List Char) : List Char :=
  match routeCapture url with
  | none => []
  | some m =>
    let route := routeOf m
    if containsSub route sep then
      match breakOn sep route with
      | some (origin, rest) =>
        ("cheapest ").data ++ origin ++ (" to ").data ++ destPart rest
          ++ (" train tickets online").data
      | none => []
    else []

/-! ## Response Matcher (`findMatchingGPTResponse`, useAnalyzer.ts
lines 118-127)

The source lowercases the prompt once before the loop; since the loop body
does not mutate it, inlining the lowering into each iteration is
observationally identical. -/

/-- The loop condition `itemPrompt.includes(lowerPrompt) ||
lowerPrompt.includes(itemPrompt)`. -/
def matchesEntry (prompt : List Char) (item : AnswerRecord) : Bool :=
  containsSub (lowerStr item.prompt) (lowerStr prompt)
    || containsSub (lowerStr prompt) (lowerStr item.prompt)

def findMatchingGPTResponse (prompt : List Char) :
    List AnswerRecord → List Char
  | [] => []
  | item :: rest =>
    if matchesEntry prompt item then item.response
    else findMatchingGPTResponse prompt rest

/-! ## Result Exporter (`exportResults`, useAnalyzer.ts lines 210-233)

The browser-side effects (Blob creation, anchor click, download filename)
are outside the model; the function is modelled as the CSV text it builds,
with `none` for the early-return on an empty result list.
`r.similarity.toFixed(4)` is modelled by `toFixed4`: round to four decimal
places and print with exactly four fractional digits. -/

/-- Decimal digit character for `d ∈ 0..9` (and `'9'` beyond, unused). -/
def digitChar (d : Nat) : Char :=
  if d = 0 then '0' else if d = 1 then '1' else if d = 2 then '2'
  else if d = 3 then '3' else if d = 4 then '4' else if d = 5 then '5'
  else if d = 6 then '6' else if d = 7 then '7' else if d = 8 then '8'
  else '9'

/-- Decimal rendering of a natural number. -/
def natToChars (n : Nat) : List Char :=
  if n = 0 then [('0' : Char)]
  else ((Nat.digits 10 n).reverse).map digitChar

/-- Model of `x.toFixed(4)`: round to the nearest fourth decimal (halves
up), printed with exactly four fractional digits.  The rounding
`⌊q·10⁴ + 1/2⌋` is computed on the reduced fraction with integer floor
division so that the definition evaluates inside the kernel. -/
def toFixed4 (q : ℚ) : List Char :=
  let scaled : ℤ := Int.fdiv (2 * q.num * 10000 + (q.den : ℤ)) (2 * (q.den : ℤ))
  let n := scaled.natAbs
  let signPart : List Char := if scaled < 0 then [('-' : Char)] else []
  let fracDigits := natToChars (n % 10000)
  signPart ++ natToChars (n / 10000) ++ [('.' : Char)]
    ++ List.replicate (4 - fracDigits.length) '0' ++ fracDigits

/-- Model of `cell.replace(/"/g, '""')`: double every embedded double quote. -/
def escapeQuotes : List Char → List Char
  | [] => []
  | c :: rest =>
    if c = '"' then '"' :: '"' :: escapeQuotes rest
    else c :: escapeQuotes rest

/-- Inverse reading of doubled quotes (used to state the round-trip). -/
def unescapeQuotes : List Char → List Char
  | [] => []
  | [c] => [c]
  | c :: d :: rest =>
    if c = '"' ∧ d = '"' then '"' :: unescapeQuotes rest
    else c :: unescapeQuotes (d :: rest)

/-- The template `` `"${cell}"` ``. -/
def quoteCell (s : List Char) : List Char := '"' :: (s ++ [('"' : Char)])

/-- Model of `Array.prototype.join(sep)` for an array of strings. -/
def joinWith (sp : Char) : List (List Char) → List Char
  | [] => []
  | [r] => r
  | r :: rest => r ++ sp :: joinWith sp rest

/-- The five cells written for one result row. -/
def rowCells (r : AnalysisResult) : List (List Char) :=
  [r.url, r.prompt, escapeQuotes r.pageText, escapeQuotes r.gptAnswer,
    toFixed4 r.similarity]

/-- The fixed header row cells. -/
def headerCells : List (List Char) :=
  [("URL").data, ("Prompt").data, ("Page Text (truncated)").data,
    ("GPT Answer (truncated)").data, ("Cosine Similarity").data]

def exportResults (results : List AnalysisResult) : Option (List Char) :=
  if results.isEmpty then none
  else
    some (joinWith '\n'
      ((headerCells :: results.map rowCells).map
        (fun row => joinWith ',' (row.map quoteCell))))

/-! ## Intent classification (`classifyIntent`, AnalysisResults.tsx
lines 114-129) -/

def transactionalKeywords : List (List Char) :=
  [("buy").data, ("book").data, ("cheap").data, ("price").data,
    ("ticket").data, ("online").data, ("purchase").data]

def informationalKeywords : List (List Char) :=
  [("how").data, ("what").data, ("when").data, ("schedule").data,
    ("duration").data, ("route").data, ("info").data]

def navigationalKeywords : List (List Char) :=
  [("trainline").data, ("website").data, ("official").data,
    ("login").data, ("account").data]

/-- Model of `(prompt + ' ' + pageText).toLowerCase()`. -/
def intentText (prompt pageText : List Char) : List Char :=
  lowerStr (prompt ++ [' '] ++ pageText)

/-- Model of `list.filter(kw => text.includes(kw)).length`. -/
def keywordCount (kws : List (List Char)) (text : List Char) : Nat :=
  (kws.filter (fun kw => containsSub text kw)).length

def classifyIntent (prompt pageText : List Char) : Intent :=
  let text := intentText prompt pageText
  let transactionalCount := keywordCount transactionalKeywords text
  let informationalCount := keywordCount informationalKeywords text
  let navigationalCount := keywordCount navigationalKeywords text
  if transactionalCount > 0 ∧ informationalCount > 0 then .Mixed
  else if transactionalCount > informationalCount
      ∧ transactionalCount > navigationalCount then .Transactional
  else if informationalCount > navigationalCount then .Informational
  else .Navigational

/-- Modelled from the claim's own words (for comparison with the source):
both transactional and informational non-zero gives `Mixed`; all counts
zero gives `Navigational`; otherwise the highest count wins, ties resolved
by the precedence transactional > informational > navigational. -/
def claimedClassifyIntent (prompt pageText : List Char) : Intent :=
  let text := intentText prompt pageText
  let t := keywordCount transactionalKeywords text
  let i := keywordCount informationalKeywords text
  let n := keywordCount navigationalKeywords text
  if t > 0 ∧ i > 0 then .Mixed
  else if t = 0 ∧ i = 0 ∧ n = 0 then .Navigational
  else if t ≥ i ∧ t ≥ n then .Transactional
  else if i ≥ n then .Informational
  else .Navigational

/-- The amended tie-breaking rule, written from the amended claim: `Mixed`
when both the transactional and informational counts are non-zero;
otherwise `Transactional` exactly when the transactional count strictly
exceeds the maximum of the other two; otherwise `Informational` exactly
when the informational count strictly exceeds the navigational count;
otherwise `Navigational` (in particular when all counts are zero, and on
every tie involving the navigational count). -/
def amendedClassifyIntent (prompt pageText : List Char) : Intent :=
  let text := intentText prompt pageText
  let t := keywordCount transactionalKeywords text
  let i := keywordCount informationalKeywords text
  let n := keywordCount navigationalKeywords text
  if t > 0 ∧ i > 0 then .Mixed
  else if t > max i n then .Transactional
  else if i > n then .Informational
  else .Navigational

/-! ## Priority scoring (`calculatePriorityScore`, AnalysisResults.tsx
lines 131-151) -/

def calculatePriorityScore (r : AnalysisResult) : ℚ :=
  let score0 : ℚ := 50
  let score1 := score0 + (1 - r.similarity) * 40
  let score2 :=
    if r.intentType = some Intent.Transactional then score1 + 20 else score1
  let score3 :=
    if r.intentType = some Intent.Mixed then score2 + 15 else score2
  let score4 :=
    match r.keywordGaps with
    | some gaps => if gaps.length > 0 then score3 + gaps.length * 5 else score3
    | none => score3
  let score5 := if r.entityMismatch = some true then score4 + 15 else score4
  let score6 :=
    if r.sentenceStructureIssue = some true then score5 + 10 else score5
  min score6 100

/-! ## Helper lemmas -/

/-- The capped score written as one flat sum (shared by the score
theorems). -/
theorem cps_eq (r : AnalysisResult) :
    calculatePriorityScore r =
      min (50 + (1 - r.similarity) * 40
        + (if r.intentType = some Intent.Transactional then (20:ℚ) else 0)
        + (if r.intentType = some Intent.Mixed then (15:ℚ) else 0)
        + 5 * ((r.keywordGaps.getD []).length : ℚ)
        + (if r.entityMismatch = some true then (15:ℚ) else 0)
        + (if r.sentenceStructureIssue = some true then (10:ℚ) else 0))
        100 := by
  obtain ⟨u, p, pt, ga, sim, up, mf, ip, it, ps, kg, em, ssi⟩ := r
  rcases kg with _ | gaps <;>
    simp only [calculatePriorityScore] <;>
    split_ifs <;>
    · congr 1
      simp only [Option.getD_none, Option.getD_some, List.length_nil,
        Nat.cast_zero]
      first
        | ring1
        | (have hz : gaps.length = 0 := by omega
           rw [hz]; push_cast; ring)

/-- Lower bound for the uncapped sum when the similarity does not exceed
one. -/
theorem prioritySum_lower (r : AnalysisResult) (h : r.similarity ≤ 1) :
    (50:ℚ) ≤ 50 + (1 - r.similarity) * 40
      + (if r.intentType = some Intent.Transactional then (20:ℚ) else 0)
      + (if r.intentType = some Intent.Mixed then (15:ℚ) else 0)
      + 5 * ((r.keywordGaps.getD []).length : ℚ)
      + (if r.entityMismatch = some true then (15:ℚ) else 0)
      + (if r.sentenceStructureIssue = some true then (10:ℚ) else 0) := by
  have h1 : (0:ℚ) ≤ (1 - r.similarity) * 40 :=
    mul_nonneg (by linarith) (by norm_num)
  have h2 : (0:ℚ)
      ≤ if r.intentType = some Intent.Transactional then (20:ℚ) else 0 := by
    split_ifs <;> norm_num
  have h3 : (0:ℚ)
      ≤ if r.intentType = some Intent.Mixed then (15:ℚ) else 0 := by
    split_ifs <;> norm_num
  have h4 : (0:ℚ) ≤ 5 * ((r.keywordGaps.getD []).length : ℚ) := by positivity
  have h5 : (0:ℚ) ≤ if r.entityMismatch = some true then (15:ℚ) else 0 := by
    split_ifs <;> norm_num
  have h6 : (0:ℚ)
      ≤ if r.sentenceStructureIssue = some true then (10:ℚ) else 0 := by
    split_ifs <;> norm_num
  linarith

theorem dotJS_aux (a : List ℝ) : ∀ (b : List ℝ) (c : ℝ),
    a.length = b.length →
    (a.zip b).foldl (fun s p => s + p.1 * p.2) c
      = (b.zip a).foldl (fun s p => s + p.1 * p.2) c := by
  induction a with
  | nil =>
    intro b c h
    cases b with
    | nil => rfl
    | cons y ys => simp at h
  | cons x xs ih =>
    intro b c h
    cases b with
    | nil => simp at h
    | cons y ys =>
      simp only [List.zip_cons_cons, List.foldl_cons]
      rw [mul_comm x y]
      exact ih ys _ (by simpa using h)

theorem dotJS_comm (a b : List ℝ) (h : a.length = b.length) :
    dotJS a b = dotJS b a :=
  dotJS_aux a b 0 h

theorem routeCapture_none_of_not_contains {url : List Char}
    (h : containsSub url tpat = false) : routeCapture url = none := by
  induction url with
  | nil => rfl
  | cons c cs ih =>
    rw [containsSub, Bool.or_eq_false_iff] at h
    unfold routeCapture
    rw [if_neg (by simp [h.1])]
    exact ih h.2

theorem breakOn_eq_append {sp l p s : List Char}
    (h : breakOn sp l = some (p, s)) : l = p ++ sp ++ s := by
  induction l generalizing p s with
  | nil =>
    unfold breakOn at h
    by_cases he : sp.isEmpty
    · rw [if_pos he] at h
      obtain ⟨rfl, rfl⟩ := Prod.mk.injEq .. ▸ Option.some.injEq .. ▸ h
      simp [List.isEmpty_iff.mp he]
    · rw [if_neg he] at h
      cases h
  | cons c cs ih =>
    unfold breakOn at h
    by_cases hp : isPref sp (c :: cs)
    · rw [if_pos hp] at h
      obtain ⟨t, ht⟩ := isPref_exists hp
      have hps : p = [] ∧ s = (c :: cs).drop sp.length := by
        constructor
        · exact ((Prod.mk.injEq ..).mp (Option.some.inj h)).1.symm
        · exact ((Prod.mk.injEq ..).mp (Option.some.inj h)).2.symm
      rw [hps.1, hps.2, ht]
      simp
    · rw [if_neg hp] at h
      cases hbk : breakOn sp cs with
      | none => rw [hbk] at h; simp at h
      | some pr =>
        obtain ⟨q, t⟩ := pr
        rw [hbk] at h
        simp only [Option.map_some'] at h
        obtain ⟨hq, hs⟩ := (Prod.mk.injEq ..).mp (Option.some.inj h)
        subst hq hs
        have := ih (p := q) (s := t) hbk
        simp [this]

theorem joinWith_count (sp c : Char) (rows : List (List Char)) :
    (joinWith sp rows).count c =
      (rows.map (fun r => r.count c)).sum
        + (if c = sp then rows.length - 1 else 0) := by
  induction rows with
  | nil => simp [joinWith]
  | cons r rest ih =>
    cases rest with
    | nil => simp [joinWith]
    | cons r2 rs =>
      show (r ++ sp :: joinWith sp (r2 :: rs)).count c = _
      by_cases hc : c = sp
      · subst hc
        rw [List.count_append, List.count_cons, ih]
        simp
        omega
      · rw [List.count_append, List.count_cons, ih]
        simp [hc, Ne.symm hc]

theorem escapeQuotes_count (s : List Char) :
    (escapeQuotes s).count '"' = 2 * s.count '"' := by
  induction s with
  | nil => rfl
  | cons c rest ih =>
    unfold escapeQuotes
    split_ifs with h
    · subst h
      simp [List.count_cons, ih]
      omega
    · simp [List.count_cons, ih, h, Ne.symm h]

theorem unescape_escape (s : List Char) :
    unescapeQuotes (escapeQuotes s) = s := by
  induction s with
  | nil => rfl
  | cons c rest ih =>
    unfold escapeQuotes
    split_ifs with h
    · subst h
      show unescapeQuotes ('"' :: '"' :: escapeQuotes rest) = _
      unfold unescapeQuotes
      rw [if_pos ⟨rfl, rfl⟩, ih]
    · cases hr : escapeQuotes rest with
      | nil =>
        have hrest : rest = [] := by
          rw [hr] at ih
          simpa [unescapeQuotes] using ih
        subst hrest
        show unescapeQuotes [c] = [c]
        rfl
      | cons d tail =>
        have hstep : unescapeQuotes (c :: d :: tail)
            = if c = '"' ∧ d = '"' then '"' :: unescapeQuotes tail
              else c :: unescapeQuotes (d :: tail) := rfl
        rw [hstep, if_neg (fun hx => h hx.1), ← hr, ih]

theorem digitChar_ne_newline (d : Nat) : digitChar d ≠ '\n' := by
  unfold digitChar
  split_ifs <;> decide

theorem newline_not_mem_natToChars (n : Nat) : ('\n') ∉ natToChars n := by
  unfold natToChars
  split_ifs with h
  · decide
  · intro hmem
    simp only [List.mem_map] at hmem
    obtain ⟨d, _, hd⟩ := hmem
    exact digitChar_ne_newline d hd

theorem newline_not_mem_toFixed4 (q : ℚ) : ('\n') ∉ toFixed4 q := by
  simp only [toFixed4]
  refine List.not_mem_append
    (List.not_mem_append
      (List.not_mem_append (List.not_mem_append ?_ ?_) ?_) ?_) ?_
  · split_ifs <;> decide
  · exact newline_not_mem_natToChars _
  · decide
  · simp [List.mem_replicate]
  · exact newline_not_mem_natToChars _

theorem newline_not_mem_escapeQuotes {s : List Char} (h : ('\n') ∉ s) :
    ('\n') ∉ escapeQuotes s := by
  induction s with
  | nil => simp [escapeQuotes]
  | cons c rest ih =>
    simp only [List.mem_cons, not_or] at h
    unfold escapeQuotes
    split_ifs with hq
    · simp only [List.mem_cons, not_or]
      exact ⟨by decide, by decide, ih h.2⟩
    · simp only [List.mem_cons, not_or]
      exact ⟨h.1, ih h.2⟩

theorem newline_count_quoteCell {s : List Char} (h : ('\n') ∉ s) :
    (quoteCell s).count '\n' = 0 := by
  rw [List.count_eq_zero]
  unfold quoteCell
  simp only [List.mem_cons, List.mem_append, not_or]
  exact ⟨by decide, h, by decide⟩

theorem row_count_newline_zero (r : AnalysisResult)
    (h : ('\n') ∉ r.url ∧ ('\n') ∉ r.prompt ∧ ('\n') ∉ r.pageText
      ∧ ('\n') ∉ r.gptAnswer) :
    (joinWith ',' ((rowCells r).map quoteCell)).count '\n' = 0 := by
  rw [joinWith_count]
  simp only [rowCells, List.map_cons, List.map_nil, List.sum_cons,
    List.sum_nil]
  rw [if_neg (by decide), newline_count_quoteCell h.1,
    newline_count_quoteCell h.2.1,
    newline_count_quoteCell (newline_not_mem_escapeQuotes h.2.2.1),
    newline_count_quoteCell (newline_not_mem_escapeQuotes h.2.2.2),
    newline_count_quoteCell (newline_not_mem_toFixed4 _)]
  simp

theorem header_count_newline_zero :
    (joinWith ',' (headerCells.map quoteCell)).count '\n' = 0 := by decide

/-! ## Claim theorems -/

/-- Claim C1, counterexample: the Response Matcher does NOT return "no
match" on an empty prompt.  An empty prompt is a substring of every
recorded query, so with the one-entry corpus `[{prompt: "a", response:
"X"}]` and the empty prompt the source returns `"X"`, not the empty
string the claim demands. -/
theorem findMatching_empty_prompt_counterexample :
    findMatchingGPTResponse [] [⟨("a").data, ("X").data⟩] ≠ [] := by decide

/-- Claim C1 (amended): `findMatchingGPTResponse` returns the response of
the first corpus entry satisfying the symmetric case-insensitive substring
test (`List.find?` over corpus order), and returns the empty string
exactly when no entry satisfies the test; since an empty prompt is a
substring of every query, an empty prompt matches the first entry of any
non-empty corpus rather than yielding "no match". -/
theorem findMatchingGPTResponse_characterization (prompt : List Char)
    (corpus : List AnswerRecord) :
    findMatchingGPTResponse prompt corpus
        = (((corpus.find? (matchesEntry prompt)).map
            AnswerRecord.response).getD []) ∧
      ((∀ item ∈ corpus, matchesEntry prompt item = false) →
        findMatchingGPTResponse prompt corpus = []) := by
  have hmain : findMatchingGPTResponse prompt corpus
      = (((corpus.find? (matchesEntry prompt)).map
          AnswerRecord.response).getD []) := by
    induction corpus with
    | nil => rfl
    | cons item rest ih =>
      by_cases h : matchesEntry prompt item
      · rw [List.find?_cons_of_pos _ h]
        simp [findMatchingGPTResponse, h]
      · rw [List.find?_cons_of_neg _ h]
        simp only [findMatchingGPTResponse]
        rw [if_neg (by simp [h]), ih]
  refine ⟨hmain, fun hall => ?_⟩
  rw [hmain, List.find?_eq_none.mpr fun x hx => by simp [hall x hx]]
  rfl

/-- Claim C1 witness: a prompt unrelated to the sole corpus entry yields
the empty answer. -/
theorem findMatchingGPTResponse_characterization_witness :
    findMatchingGPTResponse (("zzz").data)
      [⟨("cheapest london to paris train tickets online").data,
        ("X").data⟩] = [] :=
  (findMatchingGPTResponse_characterization (("zzz").data)
    [⟨("cheapest london to paris train tickets online").data,
      ("X").data⟩]).2 (by decide)

/-- Claim C2, counterexample: tie-breaking precedence fails.  For the
prompt `"buy login"` and empty page text the transactional and
navigational counts are both `1` and the informational count is `0`; the
claimed precedence (transactional wins ties) demands `Transactional`, but
the source requires a strict majority (`t > i && t > n`) and falls through
to `Navigational`. -/
theorem classifyIntent_tie_counterexample :
    classifyIntent (("buy login").data) []
      ≠ claimedClassifyIntent (("buy login").data) [] := by decide

/-- Claim C2 (amended): `Mixed` when both the transactional and
informational counts are non-zero; otherwise `Transactional` exactly when
the transactional count strictly exceeds both others; otherwise
`Informational` exactly when the informational count strictly exceeds the
navigational count; otherwise `Navigational` — in particular when all
three counts are zero, and on every tie (ties are lost, not won, by the
higher-precedence class). -/
theorem classifyIntent_amended_characterization (prompt pageText : List Char) :
    classifyIntent prompt pageText = amendedClassifyIntent prompt pageText := by
  simp only [classifyIntent, amendedClassifyIntent]
  have hmax : (keywordCount transactionalKeywords (intentText prompt pageText)
        > max (keywordCount informationalKeywords (intentText prompt pageText))
            (keywordCount navigationalKeywords (intentText prompt pageText)))
      ↔ (keywordCount transactionalKeywords (intentText prompt pageText)
          > keywordCount informationalKeywords (intentText prompt pageText)
        ∧ keywordCount transactionalKeywords (intentText prompt pageText)
          > keywordCount navigationalKeywords (intentText prompt pageText)) := by
    constructor
    · intro h
      exact ⟨lt_of_le_of_lt (le_max_left _ _) h,
        lt_of_le_of_lt (le_max_right _ _) h⟩
    · intro h
      exact max_lt h.1 h.2
  simp only [hmax]

/-- Claim C7: the Embedding Provider is total for every service outcome
(never raises), always submits the text truncated to at most 8000
characters, passes a successful service vector through unchanged, and on
any failure falls back to a 1536-component vector sampled from the
pseudo-random source. -/
theorem generateEmbedding_spec (svc : List Char → Option (List ℚ))
    (rng : Nat → ℚ) (text : List Char) :
    (text.take 8000).length ≤ 8000 ∧
    (∀ v, svc (text.take 8000) = some v → generateEmbedding svc rng text = v) ∧
    (svc (text.take 8000) = none →
      generateEmbedding svc rng text = (List.range 1536).map rng ∧
      (generateEmbedding svc rng text).length = 1536) := by
  refine ⟨?_, ?_, ?_⟩
  · rw [List.length_take]
    exact min_le_left _ _
  · intro v h
    simp [generateEmbedding, h]
  · intro h
    simp [generateEmbedding, h]

/-- Claim C7 witness: with a failing service every input yields the
1536-component fallback vector. -/
theorem generateEmbedding_spec_witness :
    (generateEmbedding (fun _ => none) (fun _ => (0:ℚ))
      (("hello").data)).length = 1536 :=
  ((generateEmbedding_spec (fun _ => none) (fun _ => (0:ℚ))
    (("hello").data)).2.2 rfl).2

/-- A result with the given similarity and every optional diagnostic field
left at its default (used to instantiate the score theorems). -/
def baseResult (s : ℚ) : AnalysisResult :=
  { url := [], prompt := [], pageText := [], gptAnswer := [],
    similarity := s }

/-- Claim C3, counterexample: the priority score does NOT strictly
increase as similarity decreases everywhere, because the cap at 100 makes
it flat.  With every other factor fixed at its default, similarity `-3/4`
is smaller than `-1/2` (both inside the documented `[-1, 1]` range), yet
both scores are capped at 100, so the score fails to strictly increase. -/
theorem priorityScore_strictness_counterexample :
    (baseResult (-(3/4))).similarity < (baseResult (-(1/2))).similarity ∧
    ¬ (calculatePriorityScore (baseResult (-(1/2)))
        < calculatePriorityScore (baseResult (-(3/4)))) := by
  constructor
  · norm_num [baseResult]
  · rw [cps_eq, cps_eq]
    simp [baseResult]
    norm_num

/-- Claim C3 (amended): for every result whose similarity lies in the
documented range `[-1, 1]`, the priority score lies between 0 and 100
inclusive; holding `intentType`, `keywordGaps`, `entityMismatch` and
`sentenceStructureIssue` fixed, the score weakly increases as similarity
decreases, and strictly increases whenever the lower-similarity score is
below the 100 cap. -/
theorem priorityScore_bounds_monotone (r r' : AnalysisResult)
    (h1 : -1 ≤ r.similarity) (h2 : r.similarity ≤ 1)
    (hs : r'.similarity < r.similarity)
    (hit : r'.intentType = r.intentType)
    (hkg : r'.keywordGaps = r.keywordGaps)
    (hem : r'.entityMismatch = r.entityMismatch)
    (hssi : r'.sentenceStructureIssue = r.sentenceStructureIssue) :
    (0 ≤ calculatePriorityScore r ∧ calculatePriorityScore r ≤ 100) ∧
    calculatePriorityScore r ≤ calculatePriorityScore r' ∧
    (calculatePriorityScore r' < 100 →
      calculatePriorityScore r < calculatePriorityScore r') := by
  rw [cps_eq r, cps_eq r', hit, hkg, hem, hssi]
  refine ⟨⟨?_, ?_⟩, ?_, ?_⟩
  · exact le_min (le_trans (by norm_num) (prioritySum_lower r h2))
      (by norm_num)
  · exact min_le_right _ _
  · exact min_le_min (by linarith) le_rfl
  · intro hlt
    have hX : (50 + (1 - r'.similarity) * 40
        + (if r.intentType = some Intent.Transactional then (20:ℚ) else 0)
        + (if r.intentType = some Intent.Mixed then (15:ℚ) else 0)
        + 5 * ((r.keywordGaps.getD []).length : ℚ)
        + (if r.entityMismatch = some true then (15:ℚ) else 0)
        + (if r.sentenceStructureIssue = some true then (10:ℚ) else 0))
          < 100 := by
      by_contra hc
      push_neg at hc
      rw [min_eq_right hc] at hlt
      exact absurd hlt (lt_irrefl 100)
    calc min (50 + (1 - r.similarity) * 40
        + (if r.intentType = some Intent.Transactional then (20:ℚ) else 0)
        + (if r.intentType = some Intent.Mixed then (15:ℚ) else 0)
        + 5 * ((r.keywordGaps.getD []).length : ℚ)
        + (if r.entityMismatch = some true then (15:ℚ) else 0)
        + (if r.sentenceStructureIssue = some true then (10:ℚ) else 0)) 100
        ≤ 50 + (1 - r.similarity) * 40
          + (if r.intentType = some Intent.Transactional then (20:ℚ) else 0)
          + (if r.intentType = some Intent.Mixed then (15:ℚ) else 0)
          + 5 * ((r.keywordGaps.getD []).length : ℚ)
          + (if r.entityMismatch = some true then (15:ℚ) else 0)
          + (if r.sentenceStructureIssue = some true then (10:ℚ) else 0) :=
        min_le_left _ _
      _ < 50 + (1 - r'.similarity) * 40
          + (if r.intentType = some Intent.Transactional then (20:ℚ) else 0)
          + (if r.intentType = some Intent.Mixed then (15:ℚ) else 0)
          + 5 * ((r.keywordGaps.getD []).length : ℚ)
          + (if r.entityMismatch = some true then (15:ℚ) else 0)
          + (if r.sentenceStructureIssue = some true then (10:ℚ) else 0) := by
        linarith
      _ = min (50 + (1 - r'.similarity) * 40
          + (if r.intentType = some Intent.Transactional then (20:ℚ) else 0)
          + (if r.intentType = some Intent.Mixed then (15:ℚ) else 0)
          + 5 * ((r.keywordGaps.getD []).length : ℚ)
          + (if r.entityMismatch = some true then (15:ℚ) else 0)
          + (if r.sentenceStructureIssue = some true then (10:ℚ) else 0)) 100 :=
        (min_eq_left hX.le).symm

/-- Claim C3 witness: at similarities 1/2 and 1/4 the bounds and the weak
increase hold for the default diagnostic fields. -/
theorem priorityScore_bounds_monotone_witness :
    0 ≤ calculatePriorityScore (baseResult (1/2)) ∧
    calculatePriorityScore (baseResult (1/2))
      ≤ calculatePriorityScore (baseResult (1/4)) := by
  have h := priorityScore_bounds_monotone (baseResult (1/2))
    (baseResult (1/4)) (by norm_num [baseResult]) (by norm_num [baseResult])
    (by norm_num [baseResult]) rfl rfl rfl rfl
  exact ⟨h.1.1, h.2.1⟩

/-- Claim C4: the priority score equals the minimum of 100 and the sum of
the base 50, `(1 − similarity) × 40`, 20 for a Transactional intent, 15
for a Mixed intent, 5 per keyword gap, 15 for an entity mismatch and 10
for a sentence-structure issue. -/
theorem calculatePriorityScore_formula (r : AnalysisResult) :
    calculatePriorityScore r =
      min 100 (50 + (1 - r.similarity) * 40
        + (if r.intentType = some Intent.Transactional then (20:ℚ) else 0)
        + (if r.intentType = some Intent.Mixed then (15:ℚ) else 0)
        + 5 * ((r.keywordGaps.getD []).length : ℚ)
        + (if r.entityMismatch = some true then (15:ℚ) else 0)
        + (if r.sentenceStructureIssue = some true then (10:ℚ) else 0)) := by
  rw [cps_eq, min_comm]

/-- Claim C10: whenever the similarity is at most 1, the priority score is
at least 50 — the base of 50 plus only non-negative contributions means the
effective range is 50-100, not 0-100. -/
theorem priorityScore_floor (r : AnalysisResult) (h : r.similarity ≤ 1) :
    50 ≤ calculatePriorityScore r := by
  rw [cps_eq]
  exact le_min (prioritySum_lower r h) (by norm_num)

/-- Claim C10 witness: a result with similarity 3/4 scores at least 50. -/
theorem priorityScore_floor_witness :
    50 ≤ calculatePriorityScore (baseResult (3/4)) :=
  priorityScore_floor (baseResult (3/4)) (by norm_num [baseResult])

/-- Claim C5, counterexample: symmetry fails for vectors of unequal
length.  `cosineSimilarity([1,1],[1])` reads past the end of `b` and is
`NaN` (`none`), while `cosineSimilarity([1],[1,1])` is the well-defined
number `1/√2`; the two are different, so the claim's "for all vectors a
and b" is false. -/
theorem cosineSimilarity_asymmetric_counterexample :
    cosineSimilarity [(1:ℝ), 1] [1] ≠ cosineSimilarity [(1:ℝ)] [1, 1] := by
  have h1 : cosineSimilarity [(1:ℝ), 1] [1] = none := by
    unfold cosineSimilarity
    rw [if_neg (by norm_num)]
  have hm1 : magnitude [(1:ℝ)] = 1 := by
    simp [magnitude, sumSq]
  have hm2 : 0 < magnitude [(1:ℝ), 1] := by
    rw [magnitude]
    apply Real.sqrt_pos.mpr
    simp [sumSq]
  have h2 : magnitude [(1:ℝ)] * magnitude [1, 1] ≠ 0 := by
    rw [hm1, one_mul]
    exact ne_of_gt hm2
  rw [h1]
  unfold cosineSimilarity
  rw [if_pos (by norm_num), if_neg h2]
  simp

/-- Claim C5 (amended): `cosineSimilarity` is symmetric on every pair of
equal-length vectors (the dimensionality every `EmbeddingVector` of the
pipeline shares); for unequal lengths the out-of-bounds read breaks
symmetry. -/
theorem cosineSimilarity_symm (a b : List ℝ) (h : a.length = b.length) :
    cosineSimilarity a b = cosineSimilarity b a := by
  unfold cosineSimilarity
  rw [if_pos (le_of_eq h), if_pos (le_of_eq h.symm), dotJS_comm a b h,
    mul_comm (magnitude b) (magnitude a)]

/-- Claim C5 witness: symmetry at the concrete pair `[1,2]`, `[3,4]`. -/
theorem cosineSimilarity_symm_witness :
    cosineSimilarity [(1:ℝ), 2] [3, 4] = cosineSimilarity [(3:ℝ), 4] [1, 2] :=
  cosineSimilarity_symm [(1:ℝ), 2] [(3:ℝ), 4] rfl

/-- Claim C6: for non-empty equal-length vectors, `cosineSimilarity` is
undefined (`NaN`, modelled as `none`) exactly when either input has zero
magnitude, and defined otherwise. -/
theorem cosineSimilarity_defined_iff (a b : List ℝ) (ha : a ≠ [])
    (hb : b ≠ []) (h : a.length = b.length) :
    (cosineSimilarity a b = none ↔ magnitude a = 0 ∨ magnitude b = 0) := by
  unfold cosineSimilarity
  rw [if_pos (le_of_eq h)]
  constructor
  · intro hnone
    by_cases hz : magnitude a * magnitude b = 0
    · exact mul_eq_zero.mp hz
    · rw [if_neg hz] at hnone
      cases hnone
  · intro hz
    rw [if_pos (mul_eq_zero.mpr hz)]

/-- Claim C6 witness: the all-zero vector has zero magnitude and the
similarity with itself is undefined. -/
theorem cosineSimilarity_defined_iff_witness :
    cosineSimilarity [(0:ℝ)] [0] = none := by
  have h := cosineSimilarity_defined_iff [(0:ℝ)] [(0:ℝ)] (by simp) (by simp)
    rfl
  refine h.mpr (Or.inl ?_)
  simp [magnitude, sumSq]

/-- Claim C8: `extractRoutePrompt` (a pure function in this embedding, so
determinism and purity hold by construction) returns the empty string when
the URL has no `train-times/` occurrence; for the matched slug it returns
the empty string when the lowercased slug lacks the separator `-to-`, and
otherwise synthesizes `"cheapest <origin> to <destination> train tickets
online"` from the tokens around the first separator occurrence (the
decomposition `route = origin ++ "-to-" ++ rest` is part of the
statement). -/
theorem extractRoutePrompt_spec (url : List Char) :
    (containsSub url tpat = false → extractRoutePrompt url = []) ∧
    ∀ m, routeCapture url = some m →
      (containsSub (routeOf m) sep = false → extractRoutePrompt url = []) ∧
      ∀ o rest, breakOn sep (routeOf m) = some (o, rest) →
        routeOf m = o ++ sep ++ rest ∧
        extractRoutePrompt url =
          ("cheapest ").data ++ o ++ (" to ").data ++ destPart rest
            ++ (" train tickets online").data := by
  refine ⟨?_, ?_⟩
  · intro h
    unfold extractRoutePrompt
    rw [routeCapture_none_of_not_contains h]
  · intro m hm
    refine ⟨?_, ?_⟩
    · intro hnosep
      unfold extractRoutePrompt
      rw [hm]
      simp only [hnosep, Bool.false_eq_true, if_false]
    · intro o rest hbo
      have heq : routeOf m = o ++ sep ++ rest := breakOn_eq_append hbo
      have hcs : containsSub (routeOf m) sep = true := by
        rw [heq]
        exact containsSub_of_append sep o rest
      refine ⟨heq, ?_⟩
      unfold extractRoutePrompt
      rw [hm]
      simp only [hcs, if_true, hbo]

/-- Claim C8 witness: the spec's own test vector — the URL
`x/train-times/london-to-paris/` derives the canonical prompt. -/
theorem extractRoutePrompt_spec_witness :
    extractRoutePrompt (("x/train-times/london-to-paris/").data)
      = ("cheapest london to paris train tickets online").data := by
  have h := ((extractRoutePrompt_spec
      (("x/train-times/london-to-paris/").data)).2
    (("london-to-paris").data) (by decide)).2
    (("london").data) (("paris").data) (by decide)
  rw [h.2]
  decide

/-- A result whose page text embeds a newline (breaks the physical row
count of the exported text). -/
def messyResult : AnalysisResult :=
  { url := ("u").data, prompt := ("p").data,
    pageText := ('a' :: '\n' :: ('b' :: [])), gptAnswer := ("g").data,
    similarity := 0 }

/-- A result with newline-free fields (instantiates the amended export
theorem). -/
def cleanResult : AnalysisResult :=
  { url := ("u").data, prompt := ("p").data, pageText := ("a").data,
    gptAnswer := ("g").data, similarity := 0 }

/-- Claim C9, counterexample: the export of a single result whose
`pageText` contains a newline has three newline-separated rows, not the
claimed `N + 1 = 2` — quoting doubles quotes but leaves newlines
unescaped. -/
theorem exportResults_rows_counterexample :
    ((exportResults [messyResult]).getD []).count '\n' + 1
      ≠ [messyResult].length + 1 := by decide

/-- Claim C9 (amended): export of an empty result list is a no-op
(`none`); for a non-empty list whose fields contain no newline character,
the exported text has exactly `N + 1` newline-separated rows (fixed header
plus one row per result); and quote-escaping doubles every embedded double
quote (the count doubles and the doubling is invertible). -/
theorem exportResults_spec (results : List AnalysisResult) :
    exportResults ([] : List AnalysisResult) = none ∧
    (results ≠ [] →
      ∀ out, exportResults results = some out →
        ((∀ r ∈ results, ('\n') ∉ r.url ∧ ('\n') ∉ r.prompt ∧
            ('\n') ∉ r.pageText ∧ ('\n') ∉ r.gptAnswer) →
          out.count '\n' + 1 = results.length + 1)) ∧
    ∀ s : List Char,
      (escapeQuotes s).count '"' = 2 * s.count '"' ∧
      unescapeQuotes (escapeQuotes s) = s := by
  refine ⟨rfl, ?_, fun s => ⟨escapeQuotes_count s, unescape_escape s⟩⟩
  intro hne out hout hfields
  unfold exportResults at hout
  rw [if_neg (by simp [List.isEmpty_iff, hne])] at hout
  have hout' : out = joinWith '\n'
      ((headerCells :: results.map rowCells).map
        (fun row => joinWith ',' (row.map quoteCell))) :=
    (Option.some.inj hout).symm
  subst hout'
  rw [joinWith_count, if_pos rfl]
  have hzero : (((headerCells :: results.map rowCells).map
      (fun row => joinWith ',' (row.map quoteCell))).map
        (fun r => r.count '\n')).sum = 0 := by
    apply List.sum_eq_zero
    intro x hx
    simp only [List.map_map, List.mem_map, Function.comp] at hx
    obtain ⟨row, hrow, hxeq⟩ := hx
    subst hxeq
    rcases List.mem_cons.mp hrow with hhd | hdata
    · rw [hhd]
      exact header_count_newline_zero
    · simp only [List.mem_map] at hdata
      obtain ⟨r, hr, hreq⟩ := hdata
      rw [← hreq]
      exact row_count_newline_zero r (hfields r hr)
  rw [hzero]
  simp

/-- Claim C9 witness: a one-element result list with newline-free fields
exports as exactly two rows. -/
theorem exportResults_spec_witness :
    ((exportResults [cleanResult]).getD []).count '\n' + 1
      = [cleanResult].length + 1 :=
  (exportResults_spec [cleanResult]).2.1 (by simp)
    ((exportResults [cleanResult]).getD []) rfl (by decide)
